import Mathlib

/-!
# Travel recommendation widget: search and normalisation logic

A shallow embedding of `travel_recommendation.js` (the data loader, the item
normaliser and the search engine) together with the properties stated about
them.

Modelling conventions.

* A JavaScript string is a Lean `String` (a sequence of Unicode scalar values).
  `String.prototype.includes` is substring containment and `trim` removes the
  ECMAScript WhiteSpace and LineTerminator code points.
* `String.prototype.toLowerCase` is Unicode default case conversion: every
  character is replaced by its lowercase mapping, which may be several
  characters and may depend on the characters around it. The mapping table
  belongs to the host, not to the program, so it is a parameter (`CaseMapping`)
  of `normalize` and of everything built on it. What is proved for every
  mapping holds for the host's.
* The catalog is an arbitrary parsed JSON value (`JSON`); `undefined` is the
  `none` of `JSValue`.
* A JavaScript exception is an `Except.error`: an unguarded property read on
  `null`/`undefined` raises `JSError.typeError`.
* The module-level cache and the network are explicit state (`World`).
-/

namespace TravelRecommendation

/-! ## Strings -/

/-- Code points removed by `String.prototype.trim`: the ECMAScript WhiteSpace
and LineTerminator productions (TAB, LF, VT, FF, CR, SP, NBSP, the Zs
category, LS, PS and the byte-order mark). -/
def isTrimChar (c : Char) : Bool :=
  let n := c.toNat
  n == 0x09 || n == 0x0A || n == 0x0B || n == 0x0C || n == 0x0D || n == 0x20 ||
  n == 0xA0 || n == 0x1680 || (0x2000 ≤ n && n ≤ 0x200A) || n == 0x2028 ||
  n == 0x2029 || n == 0x202F || n == 0x205F || n == 0x3000 || n == 0xFEFF

/-- Removal of trailing characters satisfying `p`. -/
def dropTrailing (p : Char → Bool) (l : List Char) : List Char :=
  ((l.reverse).dropWhile p).reverse

/-- The method `trim` on the characters of a string: leading and trailing
white space is removed. -/
def trimChars (l : List Char) : List Char :=
  dropTrailing isTrimChar (l.dropWhile isTrimChar)

/-- The lowercase mapping of one character, given the characters before it
and the characters after it in the string (Unicode default case conversion:
the mapping of a character may be several characters, and that of a capital
sigma depends on its neighbours). -/
abbrev CaseMapping := List Char → Char → List Char → List Char

/-- Case conversion of the characters that follow `before`. -/
def lowerFrom (m : CaseMapping) (before : List Char) : List Char → List Char
  | [] => []
  | c :: rest => m before c rest ++ lowerFrom m (before ++ [c]) rest

/-- The method `toLowerCase` on the characters of a string: each character is
replaced by its lowercase mapping in context. -/
def toLowerCase (m : CaseMapping) (l : List Char) : List Char :=
  lowerFrom m [] l

/-- Substring test on character lists: does `needle` occur in `hay` as a
contiguous block? -/
def includesChars : List Char → List Char → Bool
  | [], needle => needle.isEmpty
  | c :: cs, needle => needle.isPrefixOf (c :: cs) || includesChars cs needle

/-- The method `hay.includes(needle)`. -/
def includes (hay needle : String) : Bool :=
  includesChars hay.data needle.data

/-- Source: `normalize(str)`, that is `String(str ?? "").trim().toLowerCase()`,
on a string argument. -/
def normalize (m : CaseMapping) (str : String) : String :=
  ⟨toLowerCase m (trimChars str.data)⟩

/-! ## JSON values and property access -/

/-- A parsed JSON document. An object is its member list in document order. -/
inductive JSON where
  | null : JSON
  | bool (b : Bool) : JSON
  | num (x : ℚ) : JSON
  | str (s : String) : JSON
  | arr (xs : List JSON) : JSON
  | obj (members : List (String × JSON)) : JSON

/-- A JavaScript value reachable from a parsed document; `none` is
`undefined`. -/
abbrev JSValue := Option JSON

/-- An exception raised by the program. -/
inductive JSError where
  | typeError (msg : String) : JSError
  deriving DecidableEq, Repr

/-- Member lookup in an object: `JSON.parse` keeps the last of several members
with the same key. -/
def lookupLast : List (String × JSON) → String → Option JSON
  | [], _ => none
  | (k, v) :: rest, key =>
    match lookupLast rest key with
    | some w => some w
    | none => if k = key then some v else none

/-- The array index denoted by a property key, if the key is a canonical
numeric string (`"0"`, `"17"`, but not `"01"`). -/
def arrayIndex? (key : String) : Option Nat :=
  match key.data with
  | [] => none
  | [c] => if c.isDigit then some (c.toNat - 48) else none
  | c :: cs =>
    if c != '0' && (c :: cs).all Char.isDigit then
      some ((c :: cs).foldl (fun n d => 10 * n + (d.toNat - 48)) 0)
    else none

/-- The own property `key` of a non-nullish value. Inherited properties
(prototype methods, `length`, `__proto__`) and the index properties of a
string primitive are reported absent: none of them is a non-empty array, and
none is read by the program under a key whose value it tests for being a
string. -/
def ownProperty : JSON → String → JSValue
  | .obj members, key => lookupLast members key
  | .arr xs, key =>
    match arrayIndex? key with
    | some i => xs.get? i
    | none => none
  | _, _ => none

/-- Optional chaining `v?.[key]`: `undefined` on `null` and `undefined`. -/
def optChain : JSValue → String → JSValue
  | none, _ => none
  | some .null, _ => none
  | some v, key => ownProperty v key

/-- Plain member access `v[key]`: raises a `TypeError` on `null` and
`undefined`. -/
def member : JSValue → String → Except JSError JSValue
  | none, key => .error (.typeError ("Cannot read properties of undefined (reading " ++ key ++ ")"))
  | some .null, key => .error (.typeError ("Cannot read properties of null (reading " ++ key ++ ")"))
  | some v, key => .ok (ownProperty v key)

/-- The test `Array.isArray(v)`. -/
def isArray : JSValue → Bool
  | some (.arr _) => true
  | _ => false

/-- The test `typeof v === "string"`. -/
def isString : JSValue → Bool
  | some (.str _) => true
  | _ => false

/-- The idiom `Array.isArray(d?.[key]) ? d[key] : []`. The second read is the
unguarded `d[key]`; its value is then iterated as an array, so anything but an
array there is a `TypeError`. -/
def arrayOrEmpty (d : JSValue) (key : String) : Except JSError (List JSON) :=
  if isArray (optChain d key) then
    match member d key with
    | .ok (some (.arr xs)) => .ok xs
    | .ok _ => .error (.typeError "value is not iterable")
    | .error e => .error e
  else .ok []

/-- The idiom `typeof x?.[key] === "string" ? x[key] : ""`. The second read is
the unguarded `x[key]`; its value is stored in a field that is later used as a
string. -/
def stringOrEmpty (x : JSValue) (key : String) : Except JSError String :=
  if isString (optChain x key) then
    match member x key with
    | .ok (some (.str s)) => .ok s
    | .ok _ => .error (.typeError "value is not a string")
    | .error e => .error e
  else .ok ""

/-! ## Items and the item normaliser -/

/-- The uniform record built by the normaliser. -/
structure Item where
  category : String
  country : String
  name : String
  description : String
  imageUrl : String
  deriving DecidableEq, Repr

/-- The inner loop of `citiesFromCountries`: `for (const city of cities)
out.push({...})`. -/
def pushCities (countryName : String) : List JSON → List Item → Except JSError (List Item)
  | [], out => .ok out
  | city :: rest, out => do
    let name ← stringOrEmpty (some city) "name"
    let description ← stringOrEmpty (some city) "description"
    let imageUrl ← stringOrEmpty (some city) "imageUrl"
    pushCities countryName rest
      (out ++ [{ category := "Country", country := countryName, name := name,
                 description := description, imageUrl := imageUrl }])

/-- The outer loop of `citiesFromCountries`: `for (const c of countries)`. -/
def pushCountries : List JSON → List Item → Except JSError (List Item)
  | [], out => .ok out
  | c :: rest, out => do
    let countryName ← stringOrEmpty (some c) "name"
    let cities ← arrayOrEmpty (some c) "cities"
    let out ← pushCities countryName cities out
    pushCountries rest out

/-- Source: `citiesFromCountries(data)`. -/
def citiesFromCountries (data : JSON) : Except JSError (List Item) := do
  let countries ← arrayOrEmpty (some data) "countries"
  pushCountries countries []

/-- The label computed in `itemsFromCategory`:
`key === "beaches" ? "Beach" : key === "temples" ? "Temple" : "Place"`. -/
def catLabel (key : String) : String :=
  if key = "beaches" then "Beach" else if key = "temples" then "Temple" else "Place"

/-- The callback of `arr.map` in `itemsFromCategory`, applied along the
array. -/
def mapEntries (label : String) : List JSON → Except JSError (List Item)
  | [] => .ok []
  | x :: rest => do
    let name ← stringOrEmpty (some x) "name"
    let description ← stringOrEmpty (some x) "description"
    let imageUrl ← stringOrEmpty (some x) "imageUrl"
    let tail ← mapEntries label rest
    .ok ({ category := label, country := "", name := name,
           description := description, imageUrl := imageUrl } :: tail)

/-- Source: `itemsFromCategory(data, key)`. -/
def itemsFromCategory (data : JSON) (key : String) : Except JSError (List Item) := do
  let arr ← arrayOrEmpty (some data) key
  mapEntries (catLabel key) arr

/-- Source: `allSearchableItems(data)`: the three spreads, in order. -/
def allSearchableItems (data : JSON) : Except JSError (List Item) := do
  let cities ← citiesFromCountries data
  let temples ← itemsFromCategory data "temples"
  let beaches ← itemsFromCategory data "beaches"
  .ok (cities ++ temples ++ beaches)

/-! ## The search engine -/

/-- The value returned by `searchRecommendations`. -/
structure SearchResult where
  items : List Item
  message : String
  deriving DecidableEq, Repr

/-- The haystack of the fallback filter: the template literal
`${it.name} ${it.description} ${it.country} ${it.category}`, normalised. -/
def hay (m : CaseMapping) (it : Item) : String :=
  normalize m
    (it.name ++ " " ++ it.description ++ " " ++ it.country ++ " " ++ it.category)

/-- Source: `searchRecommendations(query, data)`. The test `!q` holds of the
empty string only, and in `!items || items.length === 0` the first disjunct
is false of every array. -/
def searchRecommendations (m : CaseMapping) (query : String) (data : JSON) :
    Except JSError SearchResult := do
  let q := normalize m query
  if q = "" then
    .ok { items := [], message := "Please enter a valid search query." }
  else
    let items ←
      if includes q "beach" then itemsFromCategory data "beaches"
      else if includes q "temple" then itemsFromCategory data "temples"
      else if includes q "country" then citiesFromCountries data
      else do
        let pool ← allSearchableItems data
        .ok (pool.filter (fun it => includes (hay m it) q))
    if items.length = 0 then
      .ok { items := [], message := "No recommendations found." }
    else
      .ok { items := items, message := "" }

/-! ## Declarative reading of the catalog -/

/-- The list held under `key`, or the empty list when the property is missing
or is not an array. -/
def listAt (d : JSON) (key : String) : List JSON :=
  match optChain (some d) key with
  | some (.arr xs) => xs
  | _ => []

/-- The string held under `key`, or the empty string when the property is
missing or is not a string. -/
def textAt (x : JSON) (key : String) : String :=
  match optChain (some x) key with
  | some (.str s) => s
  | _ => ""

/-- The item a city entry stands for, under a given country name. -/
def cityItem (countryName : String) (city : JSON) : Item :=
  { category := "Country", country := countryName, name := textAt city "name",
    description := textAt city "description", imageUrl := textAt city "imageUrl" }

/-- The item a temple or beach entry stands for, under a given label. -/
def entryItem (label : String) (x : JSON) : Item :=
  { category := label, country := "", name := textAt x "name",
    description := textAt x "description", imageUrl := textAt x "imageUrl" }

/-- The cities of a catalog: country by country, city by city. -/
def cityItems (C : JSON) : List Item :=
  (listAt C "countries").flatMap fun c => (listAt c "cities").map (cityItem (textAt c "name"))

/-- The total number of cities over all countries of a catalog. -/
def cityCount (C : JSON) : Nat :=
  ((listAt C "countries").map fun c => (listAt c "cities").length).sum

/-- A character list with no white space at either end. -/
def Trimmed (q : List Char) : Prop :=
  (∀ c, q.head? = some c → isTrimChar c = false) ∧
  (∀ c, q.getLast? = some c → isTrimChar c = false)

/-- The last two returns of `searchRecommendations`: an empty pool gives the
not-found message, any other pool is returned with an empty message. -/
def resultOf (items : List Item) : SearchResult :=
  if items.length = 0 then { items := [], message := "No recommendations found." }
  else { items := items, message := "" }

/-- The result pool selected by a non-empty normalised query `q`. -/
def poolOf (m : CaseMapping) (q : String) (C : JSON) : List Item :=
  if includes q "beach" then (listAt C "beaches").map (entryItem "Beach")
  else if includes q "temple" then (listAt C "temples").map (entryItem "Temple")
  else if includes q "country" then cityItems C
  else
    (cityItems C ++ (listAt C "temples").map (entryItem "Temple") ++
      (listAt C "beaches").map (entryItem "Beach")).filter fun it => includes (hay m it) q

/-- A case mapping under which a space separates contexts: the lowercase form
of `a`, a space, `b` is the lowercase form of `a`, a space, the lowercase form
of `b`. The host's mapping is of this kind: a space has no case, and the only
context a mapping looks at (for the capital sigma) does not extend past a
character that is neither cased nor case-ignorable. -/
def SplitsAtSpace (m : CaseMapping) : Prop :=
  ∀ a b : List Char, toLowerCase m (a ++ ' ' :: b) = toLowerCase m a ++ ' ' :: toLowerCase m b

/-- A case mapping under which `toLowerCase` and `trim` can be exchanged. The
host's mapping is of this kind: white space is mapped to itself, nothing else
is mapped to white space, and white space at the ends of a string holds no
cased letter. -/
def CommutesWithTrim (m : CaseMapping) : Prop :=
  ∀ s : List Char, toLowerCase m (trimChars s) = trimChars (toLowerCase m s)

/-- The lowercase letter of a capital of Basic Latin (`A`-`Z`) or of the
Latin-1 Supplement (`À`-`Ö`, `Ø`-`Þ`); any other character is unchanged. -/
def latinLowerChar (c : Char) : Char :=
  let n := c.toNat
  if (65 ≤ n ∧ n ≤ 90) ∨ (192 ≤ n ∧ n ≤ 214) ∨ (216 ≤ n ∧ n ≤ 222) then Char.ofNat (n + 32)
  else c

/-- The case mapping of the host restricted to Basic Latin and the Latin-1
Supplement, where it is context-free and maps one character to one. -/
def latinMapping : CaseMapping :=
  fun _ c _ => [latinLowerChar c]

/-! ## The data loader -/

/-- The response of one `fetch`: the fields read by `loadData`, and the value
`res.json()` resolves to (`none` when the body does not parse). -/
structure Response where
  ok : Bool
  status : Nat
  statusText : String
  body : Option JSON

/-- What one call of `fetch` does: it rejects, or resolves to a response. -/
inductive FetchOutcome where
  | rejected (reason : String) : FetchOutcome
  | resolved (res : Response) : FetchOutcome

/-- The ways `loadData` can fail. -/
inductive LoadError where
  | network (reason : String) : LoadError
  | status (code : Nat) (text : String) : LoadError
  | malformed : LoadError

/-- The state `loadData` acts on: the module variable `cachedApiData`, the
number of calls of `fetch` made so far, and the documents written to the
console. -/
structure World where
  cachedApiData : JSON
  fetches : Nat
  console : List JSON

/-- The state at page load: `let cachedApiData = null`, nothing fetched. -/
def World.start : World :=
  { cachedApiData := .null, fetches := 0, console := [] }

/-- JavaScript truthiness of a parsed JSON value: `null`, `false`, `0` and
`""` are falsy, everything else is truthy. -/
def truthy : JSON → Bool
  | .null => false
  | .bool b => b
  | .num x => decide (x ≠ 0)
  | .str s => decide (s ≠ "")
  | .arr _ => true
  | .obj _ => true

/-- Source: `loadData()`, run to completion. `net n` is the outcome of the
`n`-th call of `fetch` (counted from zero). -/
def loadData (net : Nat → FetchOutcome) (w : World) : Except LoadError JSON × World :=
  if truthy w.cachedApiData then (.ok w.cachedApiData, w)
  else
    let w1 : World := { w with fetches := w.fetches + 1 }
    match net w.fetches with
    | .rejected reason => (.error (.network reason), w1)
    | .resolved res =>
      if !res.ok then (.error (.status res.status res.statusText), w1)
      else
        match res.body with
        | none => (.error .malformed, w1)
        | some data =>
          (.ok data, { w1 with cachedApiData := data, console := w1.console ++ [data] })

/-- A network on which every fetch succeeds with the document `D`. -/
def serving (D : JSON) : Nat → FetchOutcome :=
  fun _ => .resolved { ok := true, status := 200, statusText := "OK", body := some D }

/-! ## Sample data -/

/-- A catalog with one country holding two cities, no temples and three
beaches. The second city has no description. -/
def sampleCatalog : JSON :=
  .obj [
    ("countries", .arr [
      .obj [("name", .str "Japan"),
            ("cities", .arr [
              .obj [("name", .str "Tokyo"),
                    ("description", .str "A waterfall garden in the city"),
                    ("imageUrl", .str "tokyo.jpg")],
              .obj [("name", .str "Kyoto"), ("imageUrl", .str "kyoto.jpg")]])]]),
    ("temples", .arr []),
    ("beaches", .arr [
      .obj [("name", .str "Bondi"), ("description", .str "Sydney surf"),
            ("imageUrl", .str "bondi.jpg")],
      .obj [("name", .str "Copacabana"), ("description", .str "Rio sands"),
            ("imageUrl", .str "copacabana.jpg")],
      .obj [("name", .str "Waikiki"), ("description", .str "Honolulu waves"),
            ("imageUrl", .str "waikiki.jpg")]])]

/-- The beaches of `sampleCatalog`, as items. -/
def sampleBeaches : List Item :=
  [{ category := "Beach", country := "", name := "Bondi", description := "Sydney surf",
     imageUrl := "bondi.jpg" },
   { category := "Beach", country := "", name := "Copacabana", description := "Rio sands",
     imageUrl := "copacabana.jpg" },
   { category := "Beach", country := "", name := "Waikiki", description := "Honolulu waves",
     imageUrl := "waikiki.jpg" }]

/-- The first beach of `sampleCatalog`, as an item. -/
def sampleBondi : Item :=
  { category := "Beach", country := "", name := "Bondi", description := "Sydney surf",
    imageUrl := "bondi.jpg" }

/-- The first city of `sampleCatalog`, as an item. -/
def sampleTokyo : Item :=
  { category := "Country", country := "Japan", name := "Tokyo",
    description := "A waterfall garden in the city", imageUrl := "tokyo.jpg" }

/-- The cities of `sampleCatalog`, as items. -/
def sampleCities : List Item :=
  [{ category := "Country", country := "Japan", name := "Tokyo",
     description := "A waterfall garden in the city", imageUrl := "tokyo.jpg" },
   { category := "Country", country := "Japan", name := "Kyoto", description := "",
     imageUrl := "kyoto.jpg" }]

/-- A catalog without a `temples` collection whose only city mentions a
temple. -/
def templeTownCatalog : JSON :=
  .obj [
    ("countries", .arr [
      .obj [("name", .str "Japan"),
            ("cities", .arr [
              .obj [("name", .str "Kyoto"), ("description", .str "A temple town")]])]])]

/-- A catalog whose only country has no cities, and whose only temple mentions
a country. -/
def noCityCatalog : JSON :=
  .obj [
    ("countries", .arr [.obj [("name", .str "Japan"), ("cities", .arr [])]]),
    ("temples", .arr [
      .obj [("name", .str "Country temple"), ("description", .str "In the country")]])]

/-- A catalog whose only city is described in capitals outside Basic Latin. -/
def saoPauloCatalog : JSON :=
  .obj [
    ("countries", .arr [
      .obj [("name", .str "Brasil"),
            ("cities", .arr [
              .obj [("name", .str "SP"), ("description", .str "SÃO PAULO is big")]])]])]

/-- The city of `saoPauloCatalog`, as an item. -/
def sampleSaoPaulo : Item :=
  { category := "Country", country := "Brasil", name := "SP",
    description := "SÃO PAULO is big", imageUrl := "" }

/-- A catalog whose only temple has a name starting with a capital outside
Basic Latin. -/
def elyseeCatalog : JSON :=
  .obj [("temples", .arr [.obj [("name", .str "Élysée")]])]

/-- The temple of `elyseeCatalog`, as an item. -/
def sampleElysee : Item :=
  { category := "Temple", country := "", name := "Élysée", description := "", imageUrl := "" }

/-- A catalog whose only beach has an empty name and a numeric description. -/
def blankNameCatalog : JSON :=
  .obj [("beaches", .arr [.obj [("name", .str ""), ("description", .num 7)]])]

/-! ## Readings of the fallback haystack -/

/-- The four fields written one after the other, lowercased. -/
def concatLower (m : CaseMapping) (it : Item) : String :=
  ⟨toLowerCase m (it.name ++ it.description ++ it.country ++ it.category).data⟩

/-- The four fields joined by single spaces, lowercased. -/
def joinedLower (m : CaseMapping) (it : Item) : String :=
  ⟨toLowerCase m
    (it.name ++ " " ++ it.description ++ " " ++ it.country ++ " " ++ it.category).data⟩

/-! ## Basic lemmas: guarded reads never raise -/

theorem arrayOrEmpty_eq (d : JSON) (key : String) :
    arrayOrEmpty (some d) key = .ok (listAt d key) := by
  cases d <;> simp only [arrayOrEmpty, listAt, optChain, member, isArray] <;>
    (try rfl) <;>
    (generalize ownProperty _ key = v
     rcases v with _ | v
     · rfl
     · cases v <;> rfl)

theorem stringOrEmpty_eq (x : JSON) (key : String) :
    stringOrEmpty (some x) key = .ok (textAt x key) := by
  cases x <;> simp only [stringOrEmpty, textAt, optChain, member, isString] <;>
    (try rfl) <;>
    (generalize ownProperty _ key = v
     rcases v with _ | v
     · rfl
     · cases v <;> rfl)

theorem pushCities_eq (countryName : String) (cities : List JSON) (out : List Item) :
    pushCities countryName cities out = .ok (out ++ cities.map (cityItem countryName)) := by
  induction cities generalizing out with
  | nil => simp [pushCities]
  | cons city rest ih =>
    simp only [pushCities, stringOrEmpty_eq, bind, Except.bind, ih]
    simp [cityItem]

theorem pushCountries_eq (countries : List JSON) (out : List Item) :
    pushCountries countries out =
      .ok (out ++ countries.flatMap fun c =>
        (listAt c "cities").map (cityItem (textAt c "name"))) := by
  induction countries generalizing out with
  | nil => simp [pushCountries]
  | cons c rest ih =>
    simp only [pushCountries, stringOrEmpty_eq, arrayOrEmpty_eq, pushCities_eq, bind,
      Except.bind, ih]
    simp

theorem citiesFromCountries_eq (C : JSON) :
    citiesFromCountries C = .ok (cityItems C) := by
  simp only [citiesFromCountries, arrayOrEmpty_eq, pushCountries_eq, bind, Except.bind]
  simp [cityItems]

theorem mapEntries_eq (label : String) (xs : List JSON) :
    mapEntries label xs = .ok (xs.map (entryItem label)) := by
  induction xs with
  | nil => simp [mapEntries]
  | cons x rest ih =>
    simp only [mapEntries, stringOrEmpty_eq, bind, Except.bind, ih]
    simp [entryItem]

theorem itemsFromCategory_eq (C : JSON) (key : String) :
    itemsFromCategory C key = .ok ((listAt C key).map (entryItem (catLabel key))) := by
  simp only [itemsFromCategory, arrayOrEmpty_eq, mapEntries_eq, bind, Except.bind]

theorem allSearchableItems_eq (C : JSON) :
    allSearchableItems C =
      .ok (cityItems C ++ (listAt C "temples").map (entryItem "Temple") ++
        (listAt C "beaches").map (entryItem "Beach")) := by
  simp only [allSearchableItems, citiesFromCountries_eq, itemsFromCategory_eq, bind,
    Except.bind]
  rfl

theorem cityItems_length (C : JSON) : (cityItems C).length = cityCount C := by
  unfold cityItems cityCount
  induction listAt C "countries" with
  | nil => rfl
  | cons c rest ih => simp [ih]

/-! ## Lemmas on strings -/

theorem includesChars_iff (hay needle : List Char) :
    includesChars hay needle = true ↔ needle <:+: hay := by
  induction hay with
  | nil => simp [includesChars, List.isEmpty_iff]
  | cons c cs ih =>
    simp only [includesChars, Bool.or_eq_true, ih, List.infix_cons_iff,
      List.isPrefixOf_iff_prefix]

theorem head_dropWhile_isTrimChar (l : List Char) (c : Char)
    (h : (l.dropWhile isTrimChar).head? = some c) : isTrimChar c = false := by
  have := List.head?_dropWhile_not isTrimChar l
  rw [h] at this
  simpa using this

theorem dropTrailing_initial (p : Char → Bool) (l : List Char) : dropTrailing p l <+: l := by
  unfold dropTrailing
  have h : (l.reverse).dropWhile p <:+ l.reverse := List.dropWhile_suffix p
  have := List.reverse_prefix.mpr h
  simpa using this

theorem trimChars_trimmed (l : List Char) : Trimmed (trimChars l) := by
  constructor
  · intro c hc
    have hp : trimChars l <+: l.dropWhile isTrimChar := dropTrailing_initial _ _
    obtain ⟨t, ht⟩ := hp
    apply head_dropWhile_isTrimChar l c
    rw [← ht]
    cases hq : trimChars l with
    | nil => rw [hq] at hc; simp at hc
    | cons a as => rw [hq] at hc; simpa using hc
  · intro c hc
    unfold trimChars dropTrailing at hc
    rw [List.getLast?_reverse] at hc
    exact head_dropWhile_isTrimChar _ c hc

theorem infix_dropWhile (q s : List Char) (c : Char) (hq : q.head? = some c)
    (hc : isTrimChar c = false) (h : q <:+: s) : q <:+: s.dropWhile isTrimChar := by
  induction s with
  | nil => simpa using h
  | cons a t ih =>
    by_cases ha : isTrimChar a = true
    · rw [List.dropWhile_cons_of_pos ha]
      rcases List.infix_cons_iff.mp h with hp | hi
      · exfalso
        obtain ⟨r, hr⟩ := hp
        cases q with
        | nil => simp at hq
        | cons b bs =>
          simp only [List.head?_cons, Option.some.injEq] at hq
          simp only [List.cons_append, List.cons.injEq] at hr
          rw [← hr.1, hq, hc] at ha
          exact Bool.false_ne_true ha
      · exact ih hi
    · rw [List.dropWhile_cons_of_neg ha]; exact h

theorem infix_trimChars (q s : List Char) (hne : q ≠ []) (ht : Trimmed q) (h : q <:+: s) :
    q <:+: trimChars s := by
  obtain ⟨h1, h2⟩ := ht
  cases q with
  | nil => exact absurd rfl hne
  | cons a as =>
    have hm := infix_dropWhile (a :: as) s a rfl (h1 a rfl) h
    unfold trimChars dropTrailing
    rw [← List.reverse_infix, List.reverse_reverse]
    obtain ⟨z, hz⟩ : ∃ z, (a :: as).reverse.head? = some z := by
      cases hr : (a :: as).reverse with
      | nil => simp at hr
      | cons z zs => exact ⟨z, rfl⟩
    refine infix_dropWhile _ _ z hz (h2 z ?_) (List.reverse_infix.mpr hm)
    rw [← hz, List.head?_reverse]

theorem trimChars_within (s : List Char) : trimChars s <:+: s :=
  ((dropTrailing_initial _ _).isInfix).trans (List.dropWhile_suffix isTrimChar).isInfix

/-- When lowercasing commutes with `trim`, a normalised string has no white
space at either end. -/
theorem normalize_trimmed (m : CaseMapping) (htrim : CommutesWithTrim m) (query : String) :
    Trimmed (normalize m query).data := by
  show Trimmed (toLowerCase m (trimChars query.data))
  rw [htrim]
  exact trimChars_trimmed _

/-- For a non-empty normalised query, trimming the haystack does not change
whether the query occurs in it. -/
theorem includes_normalize (m : CaseMapping) (htrim : CommutesWithTrim m) (query s : String)
    (hq : normalize m query ≠ "") :
    includes (normalize m s) (normalize m query) =
      includes ⟨toLowerCase m s.data⟩ (normalize m query) := by
  have hne : (normalize m query).data ≠ [] := by
    intro h; apply hq; exact String.ext h
  have ht : Trimmed (normalize m query).data := normalize_trimmed m htrim query
  rw [Bool.eq_iff_iff]
  simp only [includes, includesChars_iff]
  show (normalize m query).data <:+: toLowerCase m (trimChars s.data) ↔ _
  rw [htrim]
  exact ⟨fun h => h.trans (trimChars_within _), infix_trimChars _ _ hne ht⟩

/-! ## The Latin case mapping -/

theorem lowerFrom_latinMapping (before l : List Char) :
    lowerFrom latinMapping before l = l.map latinLowerChar := by
  induction l generalizing before with
  | nil => rfl
  | cons c rest ih => simp [lowerFrom, latinMapping, ih]

theorem toLowerCase_latinMapping (l : List Char) :
    toLowerCase latinMapping l = l.map latinLowerChar :=
  lowerFrom_latinMapping [] l

theorem isTrimChar_latinLowerChar (c : Char) :
    isTrimChar (latinLowerChar c) = isTrimChar c := by
  unfold latinLowerChar
  simp only []
  split
  · rename_i h
    have hc : isTrimChar c = false := by
      unfold isTrimChar
      generalize c.toNat = n at h
      rcases h with ⟨h1, h2⟩ | ⟨h1, h2⟩ | ⟨h1, h2⟩ <;> interval_cases n <;> rfl
    rw [hc]
    generalize c.toNat = n at h
    rcases h with ⟨h1, h2⟩ | ⟨h1, h2⟩ | ⟨h1, h2⟩ <;> interval_cases n <;> rfl
  · rfl

theorem latinMapping_splits : SplitsAtSpace latinMapping := by
  intro a b
  simp only [toLowerCase_latinMapping, List.map_append, List.map_cons]
  rfl

theorem latinMapping_commutes : CommutesWithTrim latinMapping := by
  intro s
  have hcomp : (isTrimChar ∘ latinLowerChar) = isTrimChar := by
    funext c; exact isTrimChar_latinLowerChar c
  simp only [toLowerCase_latinMapping]
  unfold trimChars dropTrailing
  rw [List.dropWhile_map, hcomp, ← List.map_reverse, List.dropWhile_map, hcomp,
    ← List.map_reverse]

/-! ## The shape of a search result -/

theorem searchRecommendations_eq (m : CaseMapping) (query : String) (C : JSON) :
    searchRecommendations m query C =
      .ok (if normalize m query = "" then
            { items := [], message := "Please enter a valid search query." }
          else resultOf (poolOf m (normalize m query) C)) := by
  unfold searchRecommendations
  simp only [itemsFromCategory_eq, citiesFromCountries_eq, allSearchableItems_eq]
  by_cases hq : normalize m query = ""
  · simp [hq]
  · simp only [hq, if_false]
    unfold poolOf resultOf
    by_cases hb : includes (normalize m query) "beach" = true
    · simp only [hb, if_true, bind, Except.bind, catLabel]
      exact (apply_ite Except.ok _ _ _).symm
    · by_cases ht : includes (normalize m query) "temple" = true
      · simp only [hb, ht, if_true, if_false, bind, Except.bind, catLabel]
        exact (apply_ite Except.ok _ _ _).symm
      · by_cases hc : includes (normalize m query) "country" = true
        · simp only [hb, ht, hc, if_true, if_false, bind, Except.bind]
          exact (apply_ite Except.ok _ _ _).symm
        · simp only [hb, ht, hc, if_false, bind, Except.bind]
          exact (apply_ite Except.ok _ _ _).symm

theorem resultOf_of_ne_nil (items : List Item) (h : items ≠ []) :
    resultOf items = { items := items, message := "" } := by
  unfold resultOf
  rw [if_neg]
  simpa using h

theorem resultOf_nil : resultOf [] = { items := [], message := "No recommendations found." } :=
  rfl

theorem resultOf_items (items : List Item) : (resultOf items).items = items := by
  unfold resultOf
  split
  · rename_i h; simp only [List.length_eq_zero] at h; simp [h]
  · rfl

theorem ne_empty_of_includes (q k : String) (hk : k ≠ "") (h : includes q k = true) :
    q ≠ "" := by
  intro hq
  subst hq
  simp only [includes, includesChars_iff] at h
  apply hk
  apply String.ext
  simpa using h

theorem listAt_eq_nil (C : JSON) (key : String)
    (h : ∀ x xs, optChain (some C) key ≠ some (.arr (x :: xs))) : listAt C key = [] := by
  unfold listAt
  split
  · rename_i xs heq
    cases xs with
    | nil => rfl
    | cons x xs => exact absurd heq (h x xs)
  · rfl

theorem normalize_blank (m : CaseMapping) (query : String)
    (h : ∀ c ∈ query.data, isTrimChar c = true) : normalize m query = "" := by
  have hd : query.data.dropWhile isTrimChar = [] := by
    rw [List.dropWhile_eq_nil_iff]; exact h
  apply String.ext
  show toLowerCase m (trimChars query.data) = []
  unfold trimChars
  rw [hd]
  rfl

theorem poolOf_beach (m : CaseMapping) (q : String) (C : JSON)
    (h : includes q "beach" = true) :
    poolOf m q C = (listAt C "beaches").map (entryItem "Beach") := by
  simp [poolOf, h]

theorem poolOf_temple (m : CaseMapping) (q : String) (C : JSON)
    (hb : includes q "beach" = false) (h : includes q "temple" = true) :
    poolOf m q C = (listAt C "temples").map (entryItem "Temple") := by
  simp [poolOf, hb, h]

theorem poolOf_country (m : CaseMapping) (q : String) (C : JSON)
    (hb : includes q "beach" = false) (ht : includes q "temple" = false)
    (h : includes q "country" = true) :
    poolOf m q C = cityItems C := by
  simp [poolOf, hb, ht, h]

theorem poolOf_fallback (m : CaseMapping) (q : String) (C : JSON)
    (hb : includes q "beach" = false) (ht : includes q "temple" = false)
    (hc : includes q "country" = false) :
    poolOf m q C =
      (cityItems C ++ (listAt C "temples").map (entryItem "Temple") ++
        (listAt C "beaches").map (entryItem "Beach")).filter
        fun it => includes (hay m it) q := by
  simp [poolOf, hb, ht, hc]

theorem hay_includes (m : CaseMapping) (htrim : CommutesWithTrim m) (query : String)
    (it : Item) (hq : normalize m query ≠ "") :
    includes (hay m it) (normalize m query) =
      includes (joinedLower m it) (normalize m query) :=
  includes_normalize m htrim query _ hq

theorem description_within_joined (m : CaseMapping) (hsplit : SplitsAtSpace m) (it : Item) :
    toLowerCase m it.description.data <:+: (joinedLower m it).data := by
  have hdata : (it.name ++ " " ++ it.description ++ " " ++ it.country ++ " " ++
      it.category).data =
      it.name.data ++ ' ' :: (it.description.data ++ ' ' ::
        (it.country.data ++ ' ' :: it.category.data)) := by
    simp only [String.data_append, List.append_assoc]
    rfl
  show _ <:+: toLowerCase m _
  rw [hdata, hsplit, hsplit]
  exact ⟨toLowerCase m it.name.data ++ [' '],
    ' ' :: toLowerCase m (it.country.data ++ ' ' :: it.category.data),
    by simp⟩

theorem pool_eq_nil_of_collection (C : JSON) :
    ((∀ x xs, optChain (some C) "beaches" ≠ some (.arr (x :: xs))) →
      itemsFromCategory C "beaches" = .ok []) ∧
    ((∀ x xs, optChain (some C) "temples" ≠ some (.arr (x :: xs))) →
      itemsFromCategory C "temples" = .ok []) ∧
    ((∀ x xs, optChain (some C) "countries" ≠ some (.arr (x :: xs))) →
      citiesFromCountries C = .ok []) := by
  refine ⟨fun h => ?_, fun h => ?_, fun h => ?_⟩
  · rw [itemsFromCategory_eq, listAt_eq_nil C _ h]; rfl
  · rw [itemsFromCategory_eq, listAt_eq_nil C _ h]; rfl
  · rw [citiesFromCountries_eq]
    unfold cityItems
    rw [listAt_eq_nil C _ h]; rfl

/-! ## Keyword routing -/

/-- C1. Keyword routing is first-match-wins on the trimmed, lowercased query:
the first of the keywords `beach`, `temple`, `country` that the query contains
selects the beaches, the temples or the cities, and when that pool is not empty
the search returns exactly that pool, in the same order, with an empty
message. This holds under every case mapping. -/
theorem searchRecommendations_keyword_routing (m : CaseMapping) (query : String) (C : JSON)
    (pool : List Item)
    (hroute :
      (includes (normalize m query) "beach" = true ∧
        itemsFromCategory C "beaches" = .ok pool) ∨
      (includes (normalize m query) "beach" = false ∧
        includes (normalize m query) "temple" = true ∧
        itemsFromCategory C "temples" = .ok pool) ∨
      (includes (normalize m query) "beach" = false ∧
        includes (normalize m query) "temple" = false ∧
        includes (normalize m query) "country" = true ∧
        citiesFromCountries C = .ok pool))
    (hne : pool ≠ []) :
    searchRecommendations m query C = .ok { items := pool, message := "" } := by
  rw [searchRecommendations_eq]
  rcases hroute with ⟨hb, hp⟩ | ⟨hb, ht, hp⟩ | ⟨hb, ht, hc, hp⟩
  · have hq := ne_empty_of_includes _ "beach" (by decide) hb
    rw [itemsFromCategory_eq] at hp
    injection hp with hp
    rw [if_neg hq, poolOf_beach _ _ _ hb]
    simp only [catLabel, if_true] at hp
    rw [hp, resultOf_of_ne_nil _ hne]
  · have hq := ne_empty_of_includes _ "temple" (by decide) ht
    rw [itemsFromCategory_eq] at hp
    injection hp with hp
    rw [if_neg hq, poolOf_temple _ _ _ hb ht]
    have hl : catLabel "temples" = "Temple" := by decide
    rw [hl] at hp
    rw [hp, resultOf_of_ne_nil _ hne]
  · have hq := ne_empty_of_includes _ "country" (by decide) hc
    rw [citiesFromCountries_eq] at hp
    injection hp with hp
    rw [if_neg hq, poolOf_country _ _ _ hb ht hc, hp, resultOf_of_ne_nil _ hne]

/-- The queries `Beach`, `beach resort` and one naming both a temple and a
beach return the three beaches of the sample catalog, and `countryside`
returns its two cities. -/
theorem searchRecommendations_keyword_routing_witness :
    searchRecommendations latinMapping "Beach" sampleCatalog =
      .ok { items := sampleBeaches, message := "" } ∧
    searchRecommendations latinMapping "beach resort" sampleCatalog =
      .ok { items := sampleBeaches, message := "" } ∧
    searchRecommendations latinMapping " a Temple by the BEACH " sampleCatalog =
      .ok { items := sampleBeaches, message := "" } ∧
    searchRecommendations latinMapping "countryside" sampleCatalog =
      .ok { items := sampleCities, message := "" } ∧
    searchRecommendations latinMapping "Temple" elyseeCatalog =
      .ok { items := [sampleElysee], message := "" } :=
  ⟨searchRecommendations_keyword_routing latinMapping "Beach" sampleCatalog sampleBeaches
      (Or.inl ⟨rfl, rfl⟩) (by decide),
    searchRecommendations_keyword_routing latinMapping "beach resort" sampleCatalog
      sampleBeaches (Or.inl ⟨rfl, rfl⟩) (by decide),
    searchRecommendations_keyword_routing latinMapping " a Temple by the BEACH "
      sampleCatalog sampleBeaches (Or.inl ⟨rfl, rfl⟩) (by decide),
    searchRecommendations_keyword_routing latinMapping "countryside" sampleCatalog
      sampleCities (Or.inr (Or.inr ⟨rfl, rfl, rfl, rfl⟩)) (by decide),
    searchRecommendations_keyword_routing latinMapping "Temple" elyseeCatalog
      [sampleElysee] (Or.inr (Or.inl ⟨rfl, rfl, rfl⟩)) (by decide)⟩

/-- C2. A query that is empty or consists only of white space (the characters
removed by `trim`) gives no items and the message asking for a valid query,
whatever the catalog and under every case mapping. -/
theorem searchRecommendations_blank_query (m : CaseMapping) (query : String) (C : JSON)
    (hblank : ∀ c ∈ query.data, isTrimChar c = true) :
    searchRecommendations m query C =
      .ok { items := [], message := "Please enter a valid search query." } := by
  rw [searchRecommendations_eq, if_pos (normalize_blank m query hblank)]

/-- The empty query and queries of blanks, tabs and line breaks on the sample
catalog and on a `null` catalog. -/
theorem searchRecommendations_blank_query_witness :
    searchRecommendations latinMapping "" sampleCatalog =
      .ok { items := [], message := "Please enter a valid search query." } ∧
    searchRecommendations latinMapping "   " sampleCatalog =
      .ok { items := [], message := "Please enter a valid search query." } ∧
    searchRecommendations latinMapping " \t\n " JSON.null =
      .ok { items := [], message := "Please enter a valid search query." } :=
  ⟨searchRecommendations_blank_query latinMapping "" sampleCatalog (by decide),
    searchRecommendations_blank_query latinMapping "   " sampleCatalog (by decide),
    searchRecommendations_blank_query latinMapping " \t\n " JSON.null (by decide)⟩

/-- C3. When the pool selected by keyword routing has no items (the beaches,
the temples, or the cities of all countries), and in particular when the
routed collection is empty, missing or not a list, the search returns no items
and the not-found message; it does not fall through to another pool. This
holds under every case mapping. -/
theorem searchRecommendations_empty_category (m : CaseMapping) (query : String) (C : JSON)
    (hroute :
      (includes (normalize m query) "beach" = true ∧
        (itemsFromCategory C "beaches" = .ok [] ∨
          ∀ x xs, optChain (some C) "beaches" ≠ some (.arr (x :: xs)))) ∨
      (includes (normalize m query) "beach" = false ∧
        includes (normalize m query) "temple" = true ∧
        (itemsFromCategory C "temples" = .ok [] ∨
          ∀ x xs, optChain (some C) "temples" ≠ some (.arr (x :: xs)))) ∨
      (includes (normalize m query) "beach" = false ∧
        includes (normalize m query) "temple" = false ∧
        includes (normalize m query) "country" = true ∧
        (citiesFromCountries C = .ok [] ∨
          ∀ x xs, optChain (some C) "countries" ≠ some (.arr (x :: xs))))) :
    searchRecommendations m query C =
      .ok { items := [], message := "No recommendations found." } := by
  obtain ⟨hB, hT, hC⟩ := pool_eq_nil_of_collection C
  rw [searchRecommendations_eq]
  rcases hroute with ⟨hb, hp⟩ | ⟨hb, ht, hp⟩ | ⟨hb, ht, hc, hp⟩
  · have hq := ne_empty_of_includes _ "beach" (by decide) hb
    have hp : itemsFromCategory C "beaches" = .ok [] := hp.elim id hB
    rw [itemsFromCategory_eq] at hp
    injection hp with hp
    simp only [catLabel, if_true] at hp
    rw [if_neg hq, poolOf_beach _ _ _ hb, hp]
    rfl
  · have hq := ne_empty_of_includes _ "temple" (by decide) ht
    have hp : itemsFromCategory C "temples" = .ok [] := hp.elim id hT
    rw [itemsFromCategory_eq] at hp
    injection hp with hp
    have hl : catLabel "temples" = "Temple" := by decide
    rw [hl] at hp
    rw [if_neg hq, poolOf_temple _ _ _ hb ht, hp]
    rfl
  · have hq := ne_empty_of_includes _ "country" (by decide) hc
    have hp : citiesFromCountries C = .ok [] := hp.elim id hC
    rw [citiesFromCountries_eq] at hp
    injection hp with hp
    rw [if_neg hq, poolOf_country _ _ _ hb ht hc, hp]
    rfl

/-- The query `temple` finds nothing in the sample catalog (its `temples` list
is empty) and nothing in a catalog without `temples` whose only city mentions a
temple; `beach` finds nothing when `beaches` is not a list or the catalog is
`null`; `country` finds nothing when `countries` is missing, and nothing when
the only country has no cities although a temple mentions a country. -/
theorem searchRecommendations_empty_category_witness :
    searchRecommendations latinMapping "temple" sampleCatalog =
      .ok { items := [], message := "No recommendations found." } ∧
    searchRecommendations latinMapping "Temple" templeTownCatalog =
      .ok { items := [], message := "No recommendations found." } ∧
    searchRecommendations latinMapping "beach"
        (JSON.obj [("beaches", JSON.str "Bondi beach")]) =
      .ok { items := [], message := "No recommendations found." } ∧
    searchRecommendations latinMapping "beach" JSON.null =
      .ok { items := [], message := "No recommendations found." } ∧
    searchRecommendations latinMapping "country" blankNameCatalog =
      .ok { items := [], message := "No recommendations found." } ∧
    searchRecommendations latinMapping "country" noCityCatalog =
      .ok { items := [], message := "No recommendations found." } :=
  ⟨searchRecommendations_empty_category latinMapping "temple" sampleCatalog
      (Or.inr (Or.inl ⟨rfl, rfl, Or.inr (fun _ _ h => nomatch h)⟩)),
    searchRecommendations_empty_category latinMapping "Temple" templeTownCatalog
      (Or.inr (Or.inl ⟨rfl, rfl, Or.inr (fun _ _ h => nomatch h)⟩)),
    searchRecommendations_empty_category latinMapping "beach"
      (JSON.obj [("beaches", JSON.str "Bondi beach")])
      (Or.inl ⟨rfl, Or.inr (fun _ _ h => nomatch h)⟩),
    searchRecommendations_empty_category latinMapping "beach" JSON.null
      (Or.inl ⟨rfl, Or.inr (fun _ _ h => nomatch h)⟩),
    searchRecommendations_empty_category latinMapping "country" blankNameCatalog
      (Or.inr (Or.inr ⟨rfl, rfl, rfl, Or.inr (fun _ _ h => nomatch h)⟩)),
    searchRecommendations_empty_category latinMapping "country" noCityCatalog
      (Or.inr (Or.inr ⟨rfl, rfl, rfl, Or.inl rfl⟩))⟩

/-! ## Full-text fallback -/

/-- C4. In the full-text fallback (a non-empty normalised query containing none
of the three keywords), every item of the search pool whose lowercased
description contains the query is among the returned items, and the message is
then empty. This holds under every case mapping for which a space separates
contexts and lowercasing commutes with `trim`, as is the case of the
host. -/
theorem searchRecommendations_fallback_description (m : CaseMapping)
    (hsplit : SplitsAtSpace m) (htrim : CommutesWithTrim m)
    (query : String) (C : JSON) (pool : List Item) (it : Item)
    (hq : normalize m query ≠ "")
    (hb : includes (normalize m query) "beach" = false)
    (ht : includes (normalize m query) "temple" = false)
    (hc : includes (normalize m query) "country" = false)
    (hpool : allSearchableItems C = .ok pool) (hit : it ∈ pool)
    (hd : includes ⟨toLowerCase m it.description.data⟩ (normalize m query) = true) :
    ∃ r, searchRecommendations m query C = .ok r ∧ it ∈ r.items ∧ r.message = "" := by
  rw [allSearchableItems_eq] at hpool
  injection hpool with hpool
  have hin : includes (hay m it) (normalize m query) = true := by
    rw [hay_includes m htrim query it hq]
    simp only [includes, includesChars_iff] at hd ⊢
    exact hd.trans (description_within_joined m hsplit it)
  have hmem : it ∈ poolOf m (normalize m query) C := by
    rw [poolOf_fallback _ _ _ hb ht hc, hpool]
    exact List.mem_filter.mpr ⟨hit, hin⟩
  have hne : poolOf m (normalize m query) C ≠ [] := List.ne_nil_of_mem hmem
  refine ⟨{ items := poolOf m (normalize m query) C, message := "" }, ?_, hmem, rfl⟩
  rw [searchRecommendations_eq, if_neg hq, resultOf_of_ne_nil _ hne]

/-- The query `Waterfall` on the sample catalog returns the city whose
description mentions a waterfall, and the query `são paulo` returns the city
described as `SÃO PAULO is big`. -/
theorem searchRecommendations_fallback_description_witness :
    (∃ r, searchRecommendations latinMapping "Waterfall" sampleCatalog = .ok r ∧
      sampleTokyo ∈ r.items ∧ r.message = "") ∧
    (∃ r, searchRecommendations latinMapping "são paulo" saoPauloCatalog = .ok r ∧
      sampleSaoPaulo ∈ r.items ∧ r.message = "") :=
  ⟨searchRecommendations_fallback_description latinMapping latinMapping_splits
      latinMapping_commutes "Waterfall" sampleCatalog (sampleCities ++ sampleBeaches)
      sampleTokyo (by decide) rfl rfl rfl rfl (List.mem_cons_self _ _) rfl,
    searchRecommendations_fallback_description latinMapping latinMapping_splits
      latinMapping_commutes "são paulo" saoPauloCatalog [sampleSaoPaulo]
      sampleSaoPaulo (by decide) rfl rfl rfl rfl (List.mem_cons_self _ _) rfl⟩

/-- C5, as stated, fails on the sample catalog (whose strings are all Basic
Latin, where `latinMapping` is the host's case mapping). Both queries are
non-empty and contain none of the keywords. The query `bondi sydney` returns
the beach Bondi although no item has it in the four fields written one after
the other, and the query `disyd` returns nothing although Bondi has it
there. -/
theorem searchRecommendations_fallback_concat_counterexample :
    allSearchableItems sampleCatalog = .ok (sampleCities ++ sampleBeaches) ∧
    (normalize latinMapping "bondi sydney" ≠ "" ∧
      includes (normalize latinMapping "bondi sydney") "beach" = false ∧
      includes (normalize latinMapping "bondi sydney") "temple" = false ∧
      includes (normalize latinMapping "bondi sydney") "country" = false ∧
      searchRecommendations latinMapping "bondi sydney" sampleCatalog =
        .ok { items := [sampleBondi], message := "" } ∧
      (sampleCities ++ sampleBeaches).filter
        (fun it => includes (concatLower latinMapping it)
          (normalize latinMapping "bondi sydney")) = []) ∧
    (normalize latinMapping "disyd" ≠ "" ∧
      includes (normalize latinMapping "disyd") "beach" = false ∧
      includes (normalize latinMapping "disyd") "temple" = false ∧
      includes (normalize latinMapping "disyd") "country" = false ∧
      searchRecommendations latinMapping "disyd" sampleCatalog =
        .ok { items := [], message := "No recommendations found." } ∧
      (sampleCities ++ sampleBeaches).filter
        (fun it => includes (concatLower latinMapping it)
          (normalize latinMapping "disyd")) = [sampleBondi]) :=
  ⟨rfl, ⟨by decide, rfl, rfl, rfl, rfl, rfl⟩, ⟨by decide, rfl, rfl, rfl, rfl, rfl⟩⟩

/-- C5, amended. In the full-text fallback the returned items are precisely the
items of the search pool, in pool order, whose name, description, country and
category joined by single spaces, trimmed and lowercased, contain the
normalised query as a substring; this holds under every case mapping. Under a
case mapping that commutes with `trim`, as the host's does, the trimming of the
joined fields makes no difference: the returned items are those whose fields
joined by single spaces and lowercased contain the query. -/
theorem searchRecommendations_fallback_exact (m : CaseMapping) (query : String) (C : JSON)
    (hq : normalize m query ≠ "")
    (hb : includes (normalize m query) "beach" = false)
    (ht : includes (normalize m query) "temple" = false)
    (hc : includes (normalize m query) "country" = false) :
    ∃ pool r, allSearchableItems C = .ok pool ∧ searchRecommendations m query C = .ok r ∧
      r.items = pool.filter (fun it =>
        includes
          (normalize m
            (it.name ++ " " ++ it.description ++ " " ++ it.country ++ " " ++ it.category))
          (normalize m query)) ∧
      (CommutesWithTrim m →
        r.items = pool.filter fun it => includes (joinedLower m it) (normalize m query)) := by
  refine ⟨_, _, allSearchableItems_eq C, searchRecommendations_eq m query C, ?_, ?_⟩
  · rw [if_neg hq, resultOf_items, poolOf_fallback _ _ _ hb ht hc]
    rfl
  · intro htrim
    rw [if_neg hq, resultOf_items, poolOf_fallback _ _ _ hb ht hc]
    apply List.filter_congr
    intro it _
    exact hay_includes m htrim query it hq

/-- The query `bondi sydney`, which spans the name and the description of a
beach, returns that beach; the query `élysée` returns the temple named
`Élysée`. -/
theorem searchRecommendations_fallback_exact_witness :
    (∃ pool r, allSearchableItems sampleCatalog = .ok pool ∧
      searchRecommendations latinMapping "bondi sydney" sampleCatalog = .ok r ∧
      r.items = pool.filter (fun it =>
        includes
          (normalize latinMapping
            (it.name ++ " " ++ it.description ++ " " ++ it.country ++ " " ++ it.category))
          (normalize latinMapping "bondi sydney")) ∧
      r.items = pool.filter fun it =>
        includes (joinedLower latinMapping it) (normalize latinMapping "bondi sydney")) ∧
    (∃ pool r, allSearchableItems elyseeCatalog = .ok pool ∧
      searchRecommendations latinMapping "élysée" elyseeCatalog = .ok r ∧
      r.items = pool.filter (fun it =>
        includes
          (normalize latinMapping
            (it.name ++ " " ++ it.description ++ " " ++ it.country ++ " " ++ it.category))
          (normalize latinMapping "élysée")) ∧
      r.items = pool.filter fun it =>
        includes (joinedLower latinMapping it) (normalize latinMapping "élysée")) := by
  constructor
  · obtain ⟨pool, r, h1, h2, h3, h4⟩ :=
      searchRecommendations_fallback_exact latinMapping "bondi sydney" sampleCatalog
        (by decide) rfl rfl rfl
    exact ⟨pool, r, h1, h2, h3, h4 latinMapping_commutes⟩
  · obtain ⟨pool, r, h1, h2, h3, h4⟩ :=
      searchRecommendations_fallback_exact latinMapping "élysée" elyseeCatalog
        (by decide) rfl rfl rfl
    exact ⟨pool, r, h1, h2, h3, h4 latinMapping_commutes⟩

/-- The search for `élysée` in `elyseeCatalog` returns the temple. -/
theorem searchRecommendations_elysee :
    searchRecommendations latinMapping "élysée" elyseeCatalog =
      .ok { items := [sampleElysee], message := "" } :=
  rfl

/-! ## The item normaliser -/

/-- C6. The cities are flattened in document order: country by country and,
within a country, city by city; the length is the total number of cities; every
item has category `Country` and carries the name of the country holding the
city. A single country `Japan` with two cities gives exactly two items, both
`Country` / `Japan`, in the order of the cities. -/
theorem citiesFromCountries_document_order (C : JSON) :
    ∃ out, citiesFromCountries C = .ok out ∧
      out = ((listAt C "countries").flatMap fun c =>
        (listAt c "cities").map fun city =>
          { category := "Country", country := textAt c "name", name := textAt city "name",
            description := textAt city "description",
            imageUrl := textAt city "imageUrl" }) ∧
      out.length = ((listAt C "countries").map fun c => (listAt c "cities").length).sum ∧
      (∀ it ∈ out, it.category = "Country") ∧
      (∀ tokyo kyoto : JSON,
        citiesFromCountries
            (.obj [("countries",
              .arr [.obj [("name", .str "Japan"), ("cities", .arr [tokyo, kyoto])]])]) =
          .ok [{ category := "Country", country := "Japan", name := textAt tokyo "name",
                 description := textAt tokyo "description",
                 imageUrl := textAt tokyo "imageUrl" },
               { category := "Country", country := "Japan", name := textAt kyoto "name",
                 description := textAt kyoto "description",
                 imageUrl := textAt kyoto "imageUrl" }]) := by
  refine ⟨cityItems C, citiesFromCountries_eq C, rfl, cityItems_length C, ?_, ?_⟩
  · intro it hit
    simp only [cityItems, List.mem_flatMap, List.mem_map] at hit
    obtain ⟨c, _, city, _, rfl⟩ := hit
    rfl
  · intro tokyo kyoto
    rw [citiesFromCountries_eq]
    rfl

/-- C7. The search pool is the cities, then the temples, then the beaches, and
its length is the number of cities plus the number of temples plus the number
of beaches. -/
theorem allSearchableItems_concat (C : JSON) :
    ∃ cities temples beaches,
      citiesFromCountries C = .ok cities ∧
      itemsFromCategory C "temples" = .ok temples ∧
      itemsFromCategory C "beaches" = .ok beaches ∧
      allSearchableItems C = .ok (cities ++ temples ++ beaches) ∧
      (cities ++ temples ++ beaches).length =
        cityCount C + (listAt C "temples").length + (listAt C "beaches").length := by
  refine ⟨_, _, _, citiesFromCountries_eq C, itemsFromCategory_eq C "temples",
    itemsFromCategory_eq C "beaches", allSearchableItems_eq C, ?_⟩
  simp only [List.length_append, List.length_map, cityItems_length]

/-- C8, as stated, fails: in `blankNameCatalog` the only beach has the string
`""` as its name, so the source field is present and is a string, and yet the
emitted name is `""`. -/
theorem itemsFromCategory_blank_name_counterexample :
    listAt blankNameCatalog "beaches" =
      [.obj [("name", .str ""), ("description", .num 7)]] ∧
    optChain (some (.obj [("name", .str ""), ("description", .num 7)])) "name" =
      some (.str "") ∧
    isString (optChain (some (.obj [("name", .str ""), ("description", .num 7)])) "name") =
      true ∧
    itemsFromCategory blankNameCatalog "beaches" =
      .ok [{ category := "Beach", country := "", name := "", description := "",
             imageUrl := "" }] :=
  ⟨rfl, rfl, rfl, rfl⟩

/-- C8, amended. On every JSON value the two normalisers return without
raising; a collection that is missing or not a list contributes no items; and
in every emitted item each of name, description, imageUrl and country is a
string: the source field itself when that field is a string, and `""` when it
is missing or not a string (for a temple or beach the country is always
`""`). -/
theorem normalisers_total (C : JSON) (key : String) :
    (citiesFromCountries C =
      .ok ((listAt C "countries").flatMap fun c =>
        (listAt c "cities").map fun city =>
          { category := "Country", country := textAt c "name", name := textAt city "name",
            description := textAt city "description",
            imageUrl := textAt city "imageUrl" })) ∧
    (itemsFromCategory C key =
      .ok ((listAt C key).map fun x =>
        { category := catLabel key, country := "", name := textAt x "name",
          description := textAt x "description", imageUrl := textAt x "imageUrl" })) ∧
    (∀ (x : JSON) (k : String),
      (∀ xs, optChain (some x) k = some (.arr xs) → listAt x k = xs) ∧
      ((∀ xs, optChain (some x) k ≠ some (.arr xs)) → listAt x k = [])) ∧
    (∀ (x : JSON) (k : String),
      (∀ t, optChain (some x) k = some (.str t) → textAt x k = t) ∧
      ((∀ t, optChain (some x) k ≠ some (.str t)) → textAt x k = "")) ∧
    ((∀ xs, optChain (some C) "countries" ≠ some (.arr xs)) →
      citiesFromCountries C = .ok []) ∧
    ((∀ xs, optChain (some C) key ≠ some (.arr xs)) → itemsFromCategory C key = .ok []) := by
  have hlist : ∀ (x : JSON) (k : String),
      (∀ xs, optChain (some x) k = some (.arr xs) → listAt x k = xs) ∧
      ((∀ xs, optChain (some x) k ≠ some (.arr xs)) → listAt x k = []) := by
    intro x k
    constructor
    · intro xs h; unfold listAt; rw [h]
    · intro h; exact listAt_eq_nil x k fun y ys => h (y :: ys)
  have htext : ∀ (x : JSON) (k : String),
      (∀ t, optChain (some x) k = some (.str t) → textAt x k = t) ∧
      ((∀ t, optChain (some x) k ≠ some (.str t)) → textAt x k = "") := by
    intro x k
    constructor
    · intro t h; unfold textAt; rw [h]
    · intro h
      unfold textAt
      split
      · rename_i t heq; exact absurd heq (h t)
      · rfl
  refine ⟨citiesFromCountries_eq C, itemsFromCategory_eq C key, hlist, htext, ?_, ?_⟩
  · intro h
    rw [citiesFromCountries_eq]
    unfold cityItems
    rw [(hlist C "countries").2 h]
    rfl
  · intro h
    rw [itemsFromCategory_eq, (hlist C key).2 h]
    rfl

/-- On `null`, on a catalog whose `beaches` is a string, and on the sample
catalog, whose second city has no description. -/
theorem normalisers_total_witness :
    citiesFromCountries JSON.null = .ok [] ∧
    itemsFromCategory (JSON.obj [("beaches", JSON.str "Bondi")]) "beaches" = .ok [] ∧
    citiesFromCountries sampleCatalog = .ok sampleCities ∧
    itemsFromCategory blankNameCatalog "beaches" =
      .ok [{ category := "Beach", country := "", name := "", description := "",
             imageUrl := "" }] :=
  ⟨(normalisers_total JSON.null "beaches").2.2.2.2.1 (fun _ h => nomatch h),
    (normalisers_total (JSON.obj [("beaches", JSON.str "Bondi")]) "beaches").2.2.2.2.2
      (fun _ h => nomatch h),
    (normalisers_total sampleCatalog "beaches").1,
    (normalisers_total blankNameCatalog "beaches").2.1⟩

/-! ## Message and items -/

/-- C10. Every search returns a result, and in it the message is non-empty
exactly when the item list is empty (equivalently, the message is empty exactly
when there are items). This holds under every case mapping. -/
theorem searchRecommendations_message_iff_no_items (m : CaseMapping) (query : String)
    (C : JSON) :
    ∃ r, searchRecommendations m query C = .ok r ∧
      (r.message ≠ "" ↔ r.items = []) ∧ (r.message = "" ↔ r.items ≠ []) := by
  refine ⟨_, searchRecommendations_eq m query C, ?_⟩
  by_cases hq : normalize m query = ""
  · rw [if_pos hq]
    exact ⟨⟨fun _ => rfl, fun _ => by decide⟩,
      ⟨fun h => absurd h (by decide), fun h => absurd rfl h⟩⟩
  · rw [if_neg hq]
    by_cases hp : poolOf m (normalize m query) C = []
    · rw [hp, resultOf_nil]
      exact ⟨⟨fun _ => rfl, fun _ => by decide⟩,
        ⟨fun h => absurd h (by decide), fun h => absurd rfl h⟩⟩
    · rw [resultOf_of_ne_nil _ hp]
      exact ⟨⟨fun h => absurd rfl h, fun h => absurd h hp⟩, ⟨fun _ => hp, fun _ => rfl⟩⟩

/-! ## The data loader -/

/-- Two calls in sequence on a network that serves a truthy document: one
fetch, and both calls return that document. -/
theorem loadData_twice_truthy (net : Nat → FetchOutcome) (res : Response) (D : JSON)
    (hnet : net 0 = .resolved res) (hok : res.ok = true) (hbody : res.body = some D)
    (hD : truthy D = true) :
    (loadData net World.start).1 = .ok D ∧
    (loadData net (loadData net World.start).2).1 = .ok D ∧
    (loadData net (loadData net World.start).2).2.fetches = 1 := by
  have h1 : loadData net World.start =
      (.ok D, { cachedApiData := D, fetches := 1, console := [D] }) := by
    simp [loadData, World.start, truthy, hnet, hok, hbody]
  rw [h1]
  simp [loadData, hD]

/-- A network that serves the sample catalog: one fetch, the same catalog
twice. -/
theorem loadData_twice_truthy_witness :
    (loadData (serving sampleCatalog) World.start).1 = .ok sampleCatalog ∧
    (loadData (serving sampleCatalog) (loadData (serving sampleCatalog) World.start).2).1 =
      .ok sampleCatalog ∧
    (loadData (serving sampleCatalog)
      (loadData (serving sampleCatalog) World.start).2).2.fetches = 1 :=
  loadData_twice_truthy (serving sampleCatalog)
    { ok := true, status := 200, statusText := "OK", body := some sampleCatalog }
    sampleCatalog rfl rfl rfl rfl

/-- C9 at the document `null`: the first call fetches, stores `null` in the
cache and returns it; the second call finds the cache falsy and fetches
again. With a network whose second response differs, the two calls return
different catalogs. -/
theorem loadData_twice_null_document :
    (loadData (serving .null) World.start).1 = .ok .null ∧
    (loadData (serving .null) World.start).2.fetches = 1 ∧
    (loadData (serving .null) (loadData (serving .null) World.start).2).1 = .ok .null ∧
    (loadData (serving .null) (loadData (serving .null) World.start).2).2.fetches = 2 ∧
    (loadData (fun n => if n = 0 then serving .null n else serving sampleCatalog n)
      (loadData (fun n => if n = 0 then serving .null n else serving sampleCatalog n)
        World.start).2).1 = .ok sampleCatalog :=
  ⟨rfl, rfl, rfl, rfl, rfl⟩

end TravelRecommendation
